import Mathlib

/-!
Shallow embedding of the `requestmanager` package of
qbeon/webwire-example-postboard (the request/reply correlation layer).

Modelling conventions:
- `uint64` values are `Nat` taken `% 2 ^ 64` wherever the Go code can
  overflow (the `lastID` increment).
- `[8]byte` (`RequestIdentifier`) is the list of its 8 bytes.
- Pointers: a `*RequestManager` back-reference is modelled as the numeric
  address (`Nat`) of the owning manager; the manager state carries its own
  address in `selfRef` so the back-reference can be stated.
- The Go map `pending` is an association list with map semantics
  (insert = cons after erasing the key, delete = erase).
- The `sync.RWMutex` is not modelled: operations are atomic steps of a
  sequential state machine.
- The unbuffered channel `reply chan reply` is a `Chan` record carrying its
  capacity (0 in this code) and its buffer (always empty at capacity 0);
  a send on it is a rendezvous, so `Fulfill`/`Fail` return the `reply`
  value they deliver to the unique receiver, and `AwaitReply` takes the
  event its `select` statement picked (cancellation, timer, or a received
  reply value) as an explicit parameter.
-/

namespace Requestmanager

/-- pld.Payload: an encoding tag and the data bytes. -/
structure PldPayload where
  encoding : Nat
  data : List Nat
deriving DecidableEq

/-- webwire.EncodedPayload wraps a pld.Payload; the Go interface value
`webwire.Payload` may be nil, so it is modelled as `Option PldPayload`
(`none` = nil, `some p` = `&EncodedPayload{Payload: p}`). The empty
`&webwire.EncodedPayload{}` is the zero payload. -/
def emptyEncodedPayload : PldPayload := ⟨0, []⟩

/-- context.Canceled / context.DeadlineExceeded, the two possible non-nil
results of ctx.Err(). -/
inductive CtxError
  | canceled
  | deadlineExceeded
deriving DecidableEq

/-- Errors surfaced by this layer: webwire timeout errors, translated
context errors, and opaque errors handed to `Fail` by the transport. -/
inductive WwrError
  | timeoutErr (msg : String)
  | ctxErr (e : CtxError)
  | remote (msg : String)
deriving DecidableEq

/-- webwire.TranslateContextError: wraps ctx.Err() into a webwire error. -/
def TranslateContextError (e : CtxError) : WwrError := .ctxErr e

/-- type reply struct { Reply webwire.Payload; Error error } -/
structure reply where
  Reply : Option PldPayload
  Error : Option WwrError
deriving DecidableEq

/-- RequestIdentifier = [8]byte, modelled as the list of its bytes. -/
abbrev RequestIdentifier := List Nat

/-- binary.LittleEndian.PutUint64: the 8 little-endian bytes of v. -/
def putUint64LE (v : Nat) : RequestIdentifier :=
  [v % 256, v / 256 % 256, v / 256 ^ 2 % 256, v / 256 ^ 3 % 256,
   v / 256 ^ 4 % 256, v / 256 ^ 5 % 256, v / 256 ^ 6 % 256, v / 256 ^ 7 % 256]

/-- binary.LittleEndian.Uint64: decode little-endian bytes to a number. -/
def uint64LE : List Nat → Nat
  | [] => 0
  | b :: rest => b + 256 * uint64LE rest

/-- A Go channel value: its capacity and its current buffer contents. -/
structure Chan where
  capacity : Nat
  buffer : List reply
deriving DecidableEq

/-- A buffered send completes without a waiting receiver iff the buffer
has room; on an unbuffered channel this is never the case. -/
def chanSendNonBlocking (c : Chan) : Bool :=
  decide (c.buffer.length < c.capacity)

/-- type Request struct { manager *RequestManager; identifier; timeout; reply chan reply } -/
structure Request where
  manager : Nat
  identifier : RequestIdentifier
  timeout : Nat
  reply : Chan
deriving DecidableEq

/-- type RequestManager struct { lastID uint64; lock sync.RWMutex; pending map[...]*Request }.
`selfRef` is the manager's own address, the target of each Request's
`manager` back-pointer. -/
structure RequestManager where
  selfRef : Nat
  lastID : Nat
  pending : List (RequestIdentifier × Request)
deriving DecidableEq

/-- Go map lookup `manager.pending[identifier]`. -/
def mapLookup (l : List (RequestIdentifier × Request)) (id : RequestIdentifier) :
    Option Request :=
  match l with
  | [] => none
  | p :: rest => if p.1 = id then some p.2 else mapLookup rest id

/-- Go map `delete(manager.pending, identifier)`. -/
def mapErase (l : List (RequestIdentifier × Request)) (id : RequestIdentifier) :
    List (RequestIdentifier × Request) :=
  l.filter (fun p => !decide (p.1 = id))

/-- Go map assignment `manager.pending[identifier] = newRequest`. -/
def mapInsert (l : List (RequestIdentifier × Request)) (id : RequestIdentifier)
    (req : Request) : List (RequestIdentifier × Request) :=
  (id, req) :: mapErase l id

/-- NewRequestManager constructs a fresh manager (at address addr). -/
def NewRequestManager (addr : Nat) : RequestManager :=
  ⟨addr, 0, []⟩

/-- Create: increments lastID (a uint64, hence mod 2^64), encodes it
little-endian into the 8-byte identifier, builds the Request with an
unbuffered reply channel (`make(chan reply)`), registers and returns it. -/
def Create (manager : RequestManager) (timeout : Nat) :
    Request × RequestManager :=
  let newLastID := (manager.lastID + 1) % 2 ^ 64
  let identifier := putUint64LE newLastID
  let newRequest : Request := ⟨manager.selfRef, identifier, timeout, ⟨0, []⟩⟩
  (newRequest,
   { manager with
      lastID := newLastID
      pending := mapInsert manager.pending identifier newRequest })

/-- deregister: delete the identifier from the pending map. -/
def deregister (manager : RequestManager) (identifier : RequestIdentifier) :
    RequestManager :=
  { manager with pending := mapErase manager.pending identifier }

/-- Fulfill: look the identifier up; if absent return false unchanged;
otherwise send `reply{Reply: &EncodedPayload{Payload: payload}, Error: nil}`
on the request's channel (the rendezvous delivery, returned as the middle
component) and deregister, returning true. -/
def Fulfill (manager : RequestManager) (identifier : RequestIdentifier)
    (payload : PldPayload) : Bool × Option reply × RequestManager :=
  match mapLookup manager.pending identifier with
  | none => (false, none, manager)
  | some _ => (true, some ⟨some payload, none⟩, deregister manager identifier)

/-- Fail: look the identifier up; if absent return false unchanged;
otherwise send `reply{Reply: nil, Error: err}` and deregister, returning
true. -/
def Fail (manager : RequestManager) (identifier : RequestIdentifier)
    (err : WwrError) : Bool × Option reply × RequestManager :=
  match mapLookup manager.pending identifier with
  | none => (false, none, manager)
  | some _ => (true, some ⟨none, some err⟩, deregister manager identifier)

/-- PendingRequests: the number of currently pending requests. -/
def PendingRequests (manager : RequestManager) : Nat :=
  manager.pending.length

/-- IsPending: membership check for the identifier. -/
def IsPending (manager : RequestManager) (identifier : RequestIdentifier) : Bool :=
  (mapLookup manager.pending identifier).isSome

/-- The event AwaitReply's select statement picks: ctx.Done() fired (with
the value of ctx.Err()), the timeout timer fired, or a reply value was
received from the request's channel. -/
inductive AwaitEvent
  | ctxDone (e : CtxError)
  | timerFired
  | replyReceived (r : reply)
deriving DecidableEq

/-- AwaitReply: given the event the select picked, produce the returned
(payload, error) pair and the manager's next state. `manager` must be the
state of the manager `req.manager` points at. Branches follow the source:
ctx.Done -> deregister, return translated context error; timer ->
deregister, return empty payload and timeout error; reply -> return the
error if non-nil, else the payload (substituting the empty encoded payload
for a nil one), without touching the table. -/
def AwaitReply (req : Request) (manager : RequestManager) (ev : AwaitEvent) :
    (Option PldPayload × Option WwrError) × RequestManager :=
  match ev with
  | .ctxDone e =>
      ((none, some (TranslateContextError e)), deregister manager req.identifier)
  | .timerFired =>
      ((some emptyEncodedPayload, some (.timeoutErr "timed out")),
       deregister manager req.identifier)
  | .replyReceived r =>
      match r.Error with
      | some err => ((none, some err), manager)
      | none =>
          match r.Reply with
          | none => ((some emptyEncodedPayload, none), manager)
          | some pReply => ((some pReply, none), manager)

/-- The manager-mutating operations, for stating trace properties. -/
inductive Op
  | create (timeout : Nat)
  | fulfill (id : RequestIdentifier) (p : PldPayload)
  | fail (id : RequestIdentifier) (e : WwrError)
  | dereg (id : RequestIdentifier)

/-- The state transition of one operation (outputs discarded). -/
def applyOp (m : RequestManager) : Op → RequestManager
  | .create t => (Create m t).2
  | .fulfill id p => (Fulfill m id p).2.2
  | .fail id e => (Fail m id e).2.2
  | .dereg id => deregister m id

/-- Run a list of operations left to right. -/
def runOps (m : RequestManager) : List Op → RequestManager
  | [] => m
  | op :: rest => runOps (applyOp m op) rest

/-- Number of create operations in a trace. -/
def createCount : List Op → Nat
  | [] => 0
  | .create _ :: rest => createCount rest + 1
  | .fulfill _ _ :: rest => createCount rest
  | .fail _ _ :: rest => createCount rest
  | .dereg _ :: rest => createCount rest

/-- n-fold Create from a fresh manager, with the n-th call using timeout
`ds n`. -/
def createIter (addr : Nat) (ds : Nat → Nat) : Nat → RequestManager
  | 0 => NewRequestManager addr
  | n + 1 => (Create (createIter addr ds n) (ds n)).2

/-- The identifier returned by the k-th Create call (k ≥ 1) on a fresh
manager. -/
def kthCreateIdentifier (addr : Nat) (ds : Nat → Nat) (k : Nat) :
    RequestIdentifier :=
  (Create (createIter addr ds (k - 1)) (ds (k - 1))).1.identifier

/-- Every pending key is the encoding of some counter value in [1, lastID]. -/
def keysBounded (m : RequestManager) : Prop :=
  ∀ p ∈ m.pending, ∃ j, 1 ≤ j ∧ j ≤ m.lastID ∧ p.1 = putUint64LE j

/-- Handle-table consistency: every pending pair maps a key to a Request
whose identifier is that key and whose manager points at addr. -/
def consistentWith (addr : Nat) (m : RequestManager) : Prop :=
  m.selfRef = addr ∧ ∀ p ∈ m.pending, p.2.identifier = p.1 ∧ p.2.manager = addr

/-- Sample payload for concrete evaluations. -/
def pl0 : PldPayload := ⟨0, [7]⟩

/-- Sample transport error for concrete evaluations. -/
def e0 : WwrError := .remote "boom"

/-- Constant timeout schedule for concrete evaluations. -/
def ds5 : Nat → Nat := fun _ => 5

/-- A fresh manager after one Create call. -/
def m1 : RequestManager := (Create (NewRequestManager 0) 5).2

/-- The request returned by that Create call. -/
def req1 : Request := (Create (NewRequestManager 0) 5).1

/-! Map lemmas. -/

theorem mapLookup_eq_none_iff (l : List (RequestIdentifier × Request))
    (id : RequestIdentifier) :
    mapLookup l id = none ↔ ∀ p ∈ l, ¬ p.1 = id := by
  induction l with
  | nil => simp [mapLookup]
  | cons hd tl ih =>
    by_cases h : hd.1 = id
    · simp [mapLookup, h]
    · simp [mapLookup, h, ih]

theorem mapLookup_erase_preserve_none (l : List (RequestIdentifier × Request))
    (id k : RequestIdentifier) (h : mapLookup l id = none) :
    mapLookup (mapErase l k) id = none := by
  rw [mapLookup_eq_none_iff] at h ⊢
  intro p hp
  exact h p (List.mem_of_mem_filter hp)

theorem mapLookup_erase_self (l : List (RequestIdentifier × Request))
    (id : RequestIdentifier) :
    mapLookup (mapErase l id) id = none := by
  rw [mapLookup_eq_none_iff]
  intro p hp
  have := List.of_mem_filter hp
  simpa using this

theorem mapErase_of_lookup_none (l : List (RequestIdentifier × Request))
    (id : RequestIdentifier) (h : mapLookup l id = none) :
    mapErase l id = l := by
  rw [mapLookup_eq_none_iff] at h
  apply List.filter_eq_self.mpr
  intro p hp
  simpa using h p hp

theorem mapErase_idem (l : List (RequestIdentifier × Request))
    (id : RequestIdentifier) :
    mapErase (mapErase l id) id = mapErase l id :=
  mapErase_of_lookup_none _ _ (mapLookup_erase_self l id)

theorem mapLookup_some_mem (l : List (RequestIdentifier × Request))
    (id : RequestIdentifier) (v : Request) (h : mapLookup l id = some v) :
    (id, v) ∈ l := by
  induction l with
  | nil => simp [mapLookup] at h
  | cons hd tl ih =>
    by_cases hk : hd.1 = id
    · simp only [mapLookup, hk, if_pos] at h
      have : (id, v) = hd := by
        cases h
        cases hd
        simp_all
      simp [this]
    · simp only [mapLookup, hk, if_neg, not_false_iff] at h
      exact List.mem_cons_of_mem _ (ih h)

/-! Little-endian encoding lemmas. -/

theorem uint64LE_putUint64LE (v : Nat) :
    uint64LE (putUint64LE v) = v % 2 ^ 64 := by
  simp only [putUint64LE, uint64LE]
  omega

theorem putUint64LE_inj (i j : Nat) (hi : i < 2 ^ 64) (hj : j < 2 ^ 64)
    (h : putUint64LE i = putUint64LE j) : i = j := by
  have hh := congrArg uint64LE h
  rw [uint64LE_putUint64LE, uint64LE_putUint64LE,
      Nat.mod_eq_of_lt hi, Nat.mod_eq_of_lt hj] at hh
  exact hh

/-! State-transition helper lemmas. -/

theorem applyOp_create_eq (m : RequestManager) (t : Nat) :
    applyOp m (.create t) =
      { m with
        lastID := (m.lastID + 1) % 2 ^ 64
        pending := mapInsert m.pending (putUint64LE ((m.lastID + 1) % 2 ^ 64))
          ⟨m.selfRef, putUint64LE ((m.lastID + 1) % 2 ^ 64), t, ⟨0, []⟩⟩ } := rfl

theorem Fulfill_of_lookup_none (m : RequestManager) (id : RequestIdentifier)
    (p : PldPayload) (h : mapLookup m.pending id = none) :
    Fulfill m id p = (false, none, m) := by
  simp [Fulfill, h]

theorem Fulfill_of_lookup_some (m : RequestManager) (id : RequestIdentifier)
    (p : PldPayload) (r : Request) (h : mapLookup m.pending id = some r) :
    Fulfill m id p = (true, some ⟨some p, none⟩, deregister m id) := by
  simp [Fulfill, h]

theorem Fail_of_lookup_none (m : RequestManager) (id : RequestIdentifier)
    (e : WwrError) (h : mapLookup m.pending id = none) :
    Fail m id e = (false, none, m) := by
  simp [Fail, h]

theorem Fail_of_lookup_some (m : RequestManager) (id : RequestIdentifier)
    (e : WwrError) (r : Request) (h : mapLookup m.pending id = some r) :
    Fail m id e = (true, some ⟨none, some e⟩, deregister m id) := by
  simp [Fail, h]

theorem applyOp_lastID (m : RequestManager) (op : Op) (h : ∀ t, op ≠ .create t) :
    (applyOp m op).lastID = m.lastID := by
  cases op with
  | create t => exact absurd rfl (h t)
  | fulfill id p =>
    simp only [applyOp, Fulfill]
    cases mapLookup m.pending id <;> rfl
  | fail id e =>
    simp only [applyOp, Fail]
    cases mapLookup m.pending id <;> rfl
  | dereg id => rfl

theorem applyOp_selfRef (m : RequestManager) (op : Op) :
    (applyOp m op).selfRef = m.selfRef := by
  cases op with
  | create t => rfl
  | fulfill id p =>
    simp only [applyOp, Fulfill]
    cases mapLookup m.pending id <;> rfl
  | fail id e =>
    simp only [applyOp, Fail]
    cases mapLookup m.pending id <;> rfl
  | dereg id => rfl

theorem applyOp_noncreate_pending (m : RequestManager) (op : Op)
    (h : ∀ t, op ≠ .create t) :
    (applyOp m op).pending = m.pending ∨
      ∃ id, (applyOp m op).pending = mapErase m.pending id := by
  cases op with
  | create t => exact absurd rfl (h t)
  | fulfill id p =>
    simp only [applyOp, Fulfill]
    cases mapLookup m.pending id with
    | none => exact Or.inl rfl
    | some r => exact Or.inr ⟨id, rfl⟩
  | fail id e =>
    simp only [applyOp, Fail]
    cases mapLookup m.pending id with
    | none => exact Or.inl rfl
    | some r => exact Or.inr ⟨id, rfl⟩
  | dereg id => exact Or.inr ⟨id, rfl⟩

/-! Trace invariants. -/

theorem keysBounded_new (addr : Nat) : keysBounded (NewRequestManager addr) := by
  intro p hp
  simp [NewRequestManager] at hp

theorem runOps_inv (l : List Op) : ∀ m : RequestManager,
    keysBounded m → m.lastID + createCount l < 2 ^ 64 →
    (runOps m l).lastID = m.lastID + createCount l ∧ keysBounded (runOps m l) := by
  induction l with
  | nil =>
    intro m hb hc
    exact ⟨by simp [runOps, createCount], hb⟩
  | cons op rest ih =>
    intro m hb hc
    cases op with
    | create t =>
      have hcc : createCount (Op.create t :: rest) = createCount rest + 1 := rfl
      have hlt : m.lastID + 1 < 2 ^ 64 := by omega
      have hmod : (m.lastID + 1) % 2 ^ 64 = m.lastID + 1 := Nat.mod_eq_of_lt hlt
      have hlast : (applyOp m (.create t)).lastID = m.lastID + 1 := by
        rw [applyOp_create_eq, hmod]
      have hb1 : keysBounded (applyOp m (.create t)) := by
        intro p hp
        rw [applyOp_create_eq, hmod] at hp
        simp only [mapInsert] at hp
        rcases List.mem_cons.mp hp with h | h
        · refine ⟨m.lastID + 1, by omega, ?_, by rw [h]⟩
          rw [hlast]
        · rcases hb p (List.mem_of_mem_filter h) with ⟨j, hj1, hj2, hj3⟩
          refine ⟨j, hj1, ?_, hj3⟩
          rw [hlast]; omega
      have hrec := ih (applyOp m (.create t)) hb1 (by rw [hlast]; omega)
      refine ⟨?_, hrec.2⟩
      show (runOps (applyOp m (.create t)) rest).lastID = _
      rw [hrec.1, hlast, hcc]
      omega
    | fulfill id p =>
      have hne : ∀ t, Op.fulfill id p ≠ Op.create t := by intro t h; cases h
      have hlast := applyOp_lastID m (.fulfill id p) hne
      have hb1 : keysBounded (applyOp m (.fulfill id p)) := by
        intro q hq
        rcases applyOp_noncreate_pending m (.fulfill id p) hne with h | ⟨k, h⟩ <;>
          rw [h] at hq
        · rcases hb q hq with ⟨j, hj1, hj2, hj3⟩
          exact ⟨j, hj1, by rw [hlast]; omega, hj3⟩
        · rcases hb q (List.mem_of_mem_filter hq) with ⟨j, hj1, hj2, hj3⟩
          exact ⟨j, hj1, by rw [hlast]; omega, hj3⟩
      have hrec := ih _ hb1 (by rw [hlast]; exact hc)
      refine ⟨?_, hrec.2⟩
      show (runOps (applyOp m (.fulfill id p)) rest).lastID = _
      rw [hrec.1, hlast]
      rfl
    | fail id e =>
      have hne : ∀ t, Op.fail id e ≠ Op.create t := by intro t h; cases h
      have hlast := applyOp_lastID m (.fail id e) hne
      have hb1 : keysBounded (applyOp m (.fail id e)) := by
        intro q hq
        rcases applyOp_noncreate_pending m (.fail id e) hne with h | ⟨k, h⟩ <;>
          rw [h] at hq
        · rcases hb q hq with ⟨j, hj1, hj2, hj3⟩
          exact ⟨j, hj1, by rw [hlast]; omega, hj3⟩
        · rcases hb q (List.mem_of_mem_filter hq) with ⟨j, hj1, hj2, hj3⟩
          exact ⟨j, hj1, by rw [hlast]; omega, hj3⟩
      have hrec := ih _ hb1 (by rw [hlast]; exact hc)
      refine ⟨?_, hrec.2⟩
      show (runOps (applyOp m (.fail id e)) rest).lastID = _
      rw [hrec.1, hlast]
      rfl
    | dereg id =>
      have hne : ∀ t, Op.dereg id ≠ Op.create t := by intro t h; cases h
      have hlast := applyOp_lastID m (.dereg id) hne
      have hb1 : keysBounded (applyOp m (.dereg id)) := by
        intro q hq
        rcases hb q (List.mem_of_mem_filter hq) with ⟨j, hj1, hj2, hj3⟩
        exact ⟨j, hj1, by rw [hlast]; omega, hj3⟩
      have hrec := ih _ hb1 (by rw [hlast]; exact hc)
      refine ⟨?_, hrec.2⟩
      show (runOps (applyOp m (.dereg id)) rest).lastID = _
      rw [hrec.1, hlast]
      rfl

theorem lookup_none_runOps (l : List Op) : ∀ (m : RequestManager) (k : Nat),
    1 ≤ k → k ≤ m.lastID → m.lastID + createCount l < 2 ^ 64 →
    mapLookup m.pending (putUint64LE k) = none →
    mapLookup (runOps m l).pending (putUint64LE k) = none := by
  induction l with
  | nil =>
    intro m k _ _ _ habs
    exact habs
  | cons op rest ih =>
    intro m k hk1 hk2 hc habs
    cases op with
    | create t =>
      have hcc : createCount (Op.create t :: rest) = createCount rest + 1 := rfl
      have hlt : m.lastID + 1 < 2 ^ 64 := by omega
      have hmod : (m.lastID + 1) % 2 ^ 64 = m.lastID + 1 := Nat.mod_eq_of_lt hlt
      have hne : ¬ putUint64LE (m.lastID + 1) = putUint64LE k := by
        intro he
        have := putUint64LE_inj _ _ hlt (by omega) he
        omega
      have habs1 : mapLookup (applyOp m (.create t)).pending (putUint64LE k) = none := by
        rw [applyOp_create_eq, hmod]
        show mapLookup (mapInsert m.pending (putUint64LE (m.lastID + 1)) _) _ = none
        simp only [mapInsert, mapLookup, hne, if_neg, not_false_iff]
        exact mapLookup_erase_preserve_none _ _ _ habs
      have hlast : (applyOp m (.create t)).lastID = m.lastID + 1 := by
        rw [applyOp_create_eq, hmod]
      show mapLookup (runOps (applyOp m (.create t)) rest).pending _ = none
      exact ih _ k hk1 (by omega) (by rw [hlast]; omega) habs1
    | fulfill id p =>
      have hne : ∀ t, Op.fulfill id p ≠ Op.create t := by intro t h; cases h
      have hlast := applyOp_lastID m (.fulfill id p) hne
      have habs1 : mapLookup (applyOp m (.fulfill id p)).pending (putUint64LE k) = none := by
        rcases applyOp_noncreate_pending m (.fulfill id p) hne with h | ⟨k2, h⟩ <;> rw [h]
        · exact habs
        · exact mapLookup_erase_preserve_none _ _ _ habs
      show mapLookup (runOps (applyOp m (.fulfill id p)) rest).pending _ = none
      exact ih _ k hk1 (by omega) (by rw [hlast]; exact hc) habs1
    | fail id e =>
      have hne : ∀ t, Op.fail id e ≠ Op.create t := by intro t h; cases h
      have hlast := applyOp_lastID m (.fail id e) hne
      have habs1 : mapLookup (applyOp m (.fail id e)).pending (putUint64LE k) = none := by
        rcases applyOp_noncreate_pending m (.fail id e) hne with h | ⟨k2, h⟩ <;> rw [h]
        · exact habs
        · exact mapLookup_erase_preserve_none _ _ _ habs
      show mapLookup (runOps (applyOp m (.fail id e)) rest).pending _ = none
      exact ih _ k hk1 (by omega) (by rw [hlast]; exact hc) habs1
    | dereg id =>
      have hne : ∀ t, Op.dereg id ≠ Op.create t := by intro t h; cases h
      have hlast := applyOp_lastID m (.dereg id) hne
      have habs1 : mapLookup (applyOp m (.dereg id)).pending (putUint64LE k) = none :=
        mapLookup_erase_preserve_none _ _ _ habs
      show mapLookup (runOps (applyOp m (.dereg id)) rest).pending _ = none
      exact ih _ k hk1 (by omega) (by rw [hlast]; exact hc) habs1

theorem runOps_append (m : RequestManager) (l₁ l₂ : List Op) :
    runOps m (l₁ ++ l₂) = runOps (runOps m l₁) l₂ := by
  induction l₁ generalizing m with
  | nil => rfl
  | cons op rest ih => exact ih (applyOp m op)

theorem lookup_none_resolve_false (m : RequestManager) (id : RequestIdentifier)
    (p : PldPayload) (e : WwrError) (h : mapLookup m.pending id = none) :
    (Fulfill m id p).1 = false ∧ (Fail m id e).1 = false := by
  rw [Fulfill_of_lookup_none m id p h, Fail_of_lookup_none m id e h]
  exact ⟨rfl, rfl⟩

theorem claimed_then_absent (addr : Nat) (t₁ t₂ : List Op)
    (id : RequestIdentifier) (r : Request)
    (hc : createCount t₁ + createCount t₂ < 2 ^ 64)
    (hsome : mapLookup (runOps (NewRequestManager addr) t₁).pending id = some r) :
    mapLookup (runOps (deregister (runOps (NewRequestManager addr) t₁) id) t₂).pending
      id = none := by
  have hinv := runOps_inv t₁ (NewRequestManager addr) (keysBounded_new addr)
    (by show 0 + createCount t₁ < 2 ^ 64; omega)
  rcases hinv.2 (id, r) (mapLookup_some_mem _ _ _ hsome) with ⟨j, hj1, hj2, hj3⟩
  have hlast1 : (runOps (NewRequestManager addr) t₁).lastID = createCount t₁ := by
    have := hinv.1
    simpa [NewRequestManager] using this
  subst hj3
  have hdl : ∀ id2, (deregister (runOps (NewRequestManager addr) t₁) id2).lastID =
      (runOps (NewRequestManager addr) t₁).lastID := fun _ => rfl
  exact lookup_none_runOps t₂ _ j hj1
    (by rw [hdl]; omega) (by rw [hdl]; omega) (mapLookup_erase_self _ _)

/-- C1: exactly-once resolution. If, in any trace from a fresh manager in
which the counter never wraps, a Fulfill or Fail call for identifier id
returns true (or a timeout/cancel claim deregisters id while it is
pending), then every subsequent Fulfill or Fail call for id in the rest of
the trace returns false: only the first claimant succeeds. -/
theorem fulfill_fail_exactly_once (addr : Nat) (t₁ t₂ : List Op)
    (id : RequestIdentifier) (p p' : PldPayload) (e e' : WwrError)
    (hc : createCount t₁ + createCount t₂ < 2 ^ 64) :
    ((Fulfill (runOps (NewRequestManager addr) t₁) id p).1 = true →
      (Fulfill (runOps (NewRequestManager addr) (t₁ ++ Op.fulfill id p :: t₂)) id p').1
          = false ∧
      (Fail (runOps (NewRequestManager addr) (t₁ ++ Op.fulfill id p :: t₂)) id e').1
          = false) ∧
    ((Fail (runOps (NewRequestManager addr) t₁) id e).1 = true →
      (Fulfill (runOps (NewRequestManager addr) (t₁ ++ Op.fail id e :: t₂)) id p').1
          = false ∧
      (Fail (runOps (NewRequestManager addr) (t₁ ++ Op.fail id e :: t₂)) id e').1
          = false) ∧
    (IsPending (runOps (NewRequestManager addr) t₁) id = true →
      (Fulfill (runOps (NewRequestManager addr) (t₁ ++ Op.dereg id :: t₂)) id p').1
          = false ∧
      (Fail (runOps (NewRequestManager addr) (t₁ ++ Op.dereg id :: t₂)) id e').1
          = false) := by
  have happ : ∀ mid : Op, runOps (NewRequestManager addr) (t₁ ++ mid :: t₂) =
      runOps (applyOp (runOps (NewRequestManager addr) t₁) mid) t₂ := by
    intro mid
    rw [runOps_append]
    rfl
  refine ⟨?_, ?_, ?_⟩
  · intro htrue
    cases h : mapLookup (runOps (NewRequestManager addr) t₁).pending id with
    | none =>
      rw [Fulfill_of_lookup_none _ _ _ h] at htrue
      cases htrue
    | some r =>
      have hmid : applyOp (runOps (NewRequestManager addr) t₁) (.fulfill id p) =
          deregister (runOps (NewRequestManager addr) t₁) id := by
        show (Fulfill _ _ _).2.2 = _
        rw [Fulfill_of_lookup_some _ _ _ _ h]
      rw [happ, hmid]
      exact lookup_none_resolve_false _ _ _ _
        (claimed_then_absent addr t₁ t₂ id r hc h)
  · intro htrue
    cases h : mapLookup (runOps (NewRequestManager addr) t₁).pending id with
    | none =>
      rw [Fail_of_lookup_none _ _ _ h] at htrue
      cases htrue
    | some r =>
      have hmid : applyOp (runOps (NewRequestManager addr) t₁) (.fail id e) =
          deregister (runOps (NewRequestManager addr) t₁) id := by
        show (Fail _ _ _).2.2 = _
        rw [Fail_of_lookup_some _ _ _ _ h]
      rw [happ, hmid]
      exact lookup_none_resolve_false _ _ _ _
        (claimed_then_absent addr t₁ t₂ id r hc h)
  · intro htrue
    cases h : mapLookup (runOps (NewRequestManager addr) t₁).pending id with
    | none =>
      rw [IsPending, h] at htrue
      cases htrue
    | some r =>
      have hmid : applyOp (runOps (NewRequestManager addr) t₁) (.dereg id) =
          deregister (runOps (NewRequestManager addr) t₁) id := rfl
      rw [happ, hmid]
      exact lookup_none_resolve_false _ _ _ _
        (claimed_then_absent addr t₁ t₂ id r hc h)

/-- Witness for C1: on the concrete trace create; fulfill(id 1); create,
the second fulfill and a fail on identifier 1 both return false. -/
theorem fulfill_fail_exactly_once_witness :
    (Fulfill (runOps (NewRequestManager 0)
        ([Op.create 5] ++ Op.fulfill (putUint64LE 1) pl0 :: [Op.create 7]))
      (putUint64LE 1) pl0).1 = false ∧
    (Fail (runOps (NewRequestManager 0)
        ([Op.create 5] ++ Op.fulfill (putUint64LE 1) pl0 :: [Op.create 7]))
      (putUint64LE 1) e0).1 = false :=
  (fulfill_fail_exactly_once 0 [Op.create 5] [Op.create 7] (putUint64LE 1)
    pl0 pl0 e0 e0 (by decide)).1 (by decide)

/-- C2 counterexample: after a Fulfill for identifier 1 has already
succeeded (returned true), the cancellation event makes AwaitReply return
the Canceled outcome, not the payload the Fulfill delivered — the code has
no fallback to a deposited outcome. -/
theorem awaitreply_lost_claim_counterexample :
    (Fulfill m1 (putUint64LE 1) pl0).1 = true ∧
    (AwaitReply req1 (Fulfill m1 (putUint64LE 1) pl0).2.2
        (.ctxDone .canceled)).1 = (none, some (TranslateContextError .canceled)) ∧
    ¬ (AwaitReply req1 (Fulfill m1 (putUint64LE 1) pl0).2.2
        (.ctxDone .canceled)).1 = (some pl0, none) ∧
    (AwaitReply req1 (Fulfill m1 (putUint64LE 1) pl0).2.2
        .timerFired).1.2 = some (.timeoutErr "timed out") := by
  decide

/-- C2 amended: when the cancellation or the timeout event is selected,
AwaitReply unconditionally deregisters the identifier and returns the
Canceled (translated context error) or Timeout outcome; it performs no
claim attempt and never falls back to reading a deposited outcome,
whatever the manager state. -/
theorem awaitreply_cancel_timeout_unconditional (req : Request)
    (m : RequestManager) (e : CtxError) :
    AwaitReply req m (.ctxDone e) =
      ((none, some (TranslateContextError e)), deregister m req.identifier) ∧
    AwaitReply req m .timerFired =
      ((some emptyEncodedPayload, some (.timeoutErr "timed out")),
        deregister m req.identifier) :=
  ⟨rfl, rfl⟩

/-- C3 counterexample: the reply channel of a freshly created request has
capacity 0, not capacity 1. -/
theorem create_capacity_counterexample :
    ((Create (NewRequestManager 0) 5).1).reply.capacity = 0 ∧
    ¬ ((Create (NewRequestManager 0) 5).1).reply.capacity = 1 := by
  decide

/-- C3 amended: for every timeout duration, the Request returned by Create
carries a freshly made unbuffered reply channel (capacity 0, empty
buffer), on which a send can never complete against the buffer: the
outcome write blocks until the awaiting receiver takes it. -/
theorem create_channel_unbuffered (m : RequestManager) (timeout : Nat) :
    ((Create m timeout).1).reply = ⟨0, []⟩ ∧
    chanSendNonBlocking ((Create m timeout).1).reply = false :=
  ⟨rfl, rfl⟩

/-- C4: when id is pending, Fulfill returns true, delivers the success
reply carrying payload p, leaves id no longer pending, and an AwaitReply
that receives that reply returns payload p with no error without touching
the table further. -/
theorem fulfill_pending_postcondition (m : RequestManager)
    (id : RequestIdentifier) (r : Request) (p : PldPayload) (req : Request)
    (hpend : mapLookup m.pending id = some r) :
    (Fulfill m id p).1 = true ∧
    (Fulfill m id p).2.1 = some ⟨some p, none⟩ ∧
    IsPending (Fulfill m id p).2.2 id = false ∧
    (AwaitReply req (Fulfill m id p).2.2 (.replyReceived ⟨some p, none⟩)).1 =
      (some p, none) ∧
    (AwaitReply req (Fulfill m id p).2.2 (.replyReceived ⟨some p, none⟩)).2 =
      (Fulfill m id p).2.2 := by
  rw [Fulfill_of_lookup_some m id p r hpend]
  refine ⟨rfl, rfl, ?_, rfl, rfl⟩
  show (mapLookup (mapErase m.pending id) id).isSome = false
  rw [mapLookup_erase_self]
  rfl

/-- Witness for C4 on the concrete one-request manager. -/
theorem fulfill_pending_postcondition_witness :
    (Fulfill m1 (putUint64LE 1) pl0).1 = true ∧
    (Fulfill m1 (putUint64LE 1) pl0).2.1 = some ⟨some pl0, none⟩ ∧
    IsPending (Fulfill m1 (putUint64LE 1) pl0).2.2 (putUint64LE 1) = false ∧
    (AwaitReply req1 (Fulfill m1 (putUint64LE 1) pl0).2.2
        (.replyReceived ⟨some pl0, none⟩)).1 = (some pl0, none) ∧
    (AwaitReply req1 (Fulfill m1 (putUint64LE 1) pl0).2.2
        (.replyReceived ⟨some pl0, none⟩)).2 = (Fulfill m1 (putUint64LE 1) pl0).2.2 :=
  fulfill_pending_postcondition m1 (putUint64LE 1) req1 pl0 req1 (by decide)

/-- C5: Fulfill and Fail on an identifier absent from the table return
false and the whole manager state — table, counter, every other request —
is returned unchanged, with no reply value delivered anywhere. -/
theorem fulfill_fail_absent_noop (m : RequestManager) (id : RequestIdentifier)
    (p : PldPayload) (e : WwrError) (h : mapLookup m.pending id = none) :
    Fulfill m id p = (false, none, m) ∧ Fail m id e = (false, none, m) :=
  ⟨Fulfill_of_lookup_none m id p h, Fail_of_lookup_none m id e h⟩

/-- Witness for C5: identifier 2 is unknown to the one-request manager. -/
theorem fulfill_fail_absent_noop_witness :
    Fulfill m1 (putUint64LE 2) pl0 = (false, none, m1) ∧
    Fail m1 (putUint64LE 2) e0 = (false, none, m1) :=
  fulfill_fail_absent_noop m1 (putUint64LE 2) pl0 e0 (by decide)

theorem createIter_lastID (addr : Nat) (ds : Nat → Nat) (n : Nat)
    (h : n < 2 ^ 64) : (createIter addr ds n).lastID = n := by
  induction n with
  | zero => rfl
  | succ k ih =>
    have hk := ih (by omega)
    show ((createIter addr ds k).lastID + 1) % 2 ^ 64 = k + 1
    rw [hk]
    exact Nat.mod_eq_of_lt (by omega)

/-- C6: the identifier of the k-th Create call on a fresh manager is the
8-byte little-endian encoding of k; hence for N below 2^64 the N
identifiers are pairwise distinct and strictly increasing when decoded as
little-endian uint64. -/
theorem create_identifier_allocation (addr : Nat) (ds : Nat → Nat) :
    (∀ k, 1 ≤ k → k < 2 ^ 64 → kthCreateIdentifier addr ds k = putUint64LE k) ∧
    (∀ N, N < 2 ^ 64 → ∀ i j, 1 ≤ i → i < j → j ≤ N →
      ¬ kthCreateIdentifier addr ds i = kthCreateIdentifier addr ds j ∧
      uint64LE (kthCreateIdentifier addr ds i) <
        uint64LE (kthCreateIdentifier addr ds j)) := by
  have hk : ∀ k, 1 ≤ k → k < 2 ^ 64 →
      kthCreateIdentifier addr ds k = putUint64LE k := by
    intro k hk1 hk2
    show putUint64LE (((createIter addr ds (k - 1)).lastID + 1) % 2 ^ 64) =
      putUint64LE k
    rw [createIter_lastID addr ds (k - 1) (by omega)]
    have hkk : (k - 1 + 1) % 2 ^ 64 = k := by omega
    rw [hkk]
  refine ⟨hk, ?_⟩
  intro N hN i j hi hij hjN
  rw [hk i hi (by omega), hk j (by omega) (by omega)]
  constructor
  · intro he
    have := putUint64LE_inj i j (by omega) (by omega) he
    omega
  · rw [uint64LE_putUint64LE, uint64LE_putUint64LE,
        Nat.mod_eq_of_lt (show i < 2 ^ 64 by omega),
        Nat.mod_eq_of_lt (show j < 2 ^ 64 by omega)]
    omega

/-- Witness for C6 at k = 1, 2. -/
theorem create_identifier_allocation_witness :
    kthCreateIdentifier 0 ds5 1 = putUint64LE 1 ∧
    ¬ kthCreateIdentifier 0 ds5 1 = kthCreateIdentifier 0 ds5 2 ∧
    uint64LE (kthCreateIdentifier 0 ds5 1) <
      uint64LE (kthCreateIdentifier 0 ds5 2) :=
  ⟨(create_identifier_allocation 0 ds5).1 1 (by decide) (by decide),
   (create_identifier_allocation 0 ds5).2 2 (by decide) 1 2 (by decide)
     (by decide) (by decide)⟩

theorem awaitreply_reply_state (req : Request) (m : RequestManager) (r : reply) :
    (AwaitReply req m (.replyReceived r)).2 = m := by
  rcases r with ⟨rr, re⟩
  cases re <;> cases rr <;> rfl

/-- C7: after AwaitReply returns by the cancellation path or the timeout
path the identifier is no longer pending (AwaitReply deregistered it), and
after it returns by the reply path following a successful Fulfill or Fail
the identifier is no longer pending either (the resolver deregistered it). -/
theorem awaitreply_entry_removed (req : Request) (m : RequestManager)
    (e : CtxError) (id : RequestIdentifier) (p : PldPayload) (er : WwrError)
    (r : reply) :
    IsPending (AwaitReply req m (.ctxDone e)).2 req.identifier = false ∧
    IsPending (AwaitReply req m .timerFired).2 req.identifier = false ∧
    ((Fulfill m id p).1 = true →
      IsPending (AwaitReply req (Fulfill m id p).2.2 (.replyReceived r)).2 id
        = false) ∧
    ((Fail m id er).1 = true →
      IsPending (AwaitReply req (Fail m id er).2.2 (.replyReceived r)).2 id
        = false) := by
  refine ⟨?_, ?_, ?_, ?_⟩
  · show (mapLookup (mapErase m.pending req.identifier) req.identifier).isSome
      = false
    rw [mapLookup_erase_self]
    rfl
  · show (mapLookup (mapErase m.pending req.identifier) req.identifier).isSome
      = false
    rw [mapLookup_erase_self]
    rfl
  · intro htrue
    rw [awaitreply_reply_state]
    cases h : mapLookup m.pending id with
    | none =>
      rw [Fulfill_of_lookup_none _ _ _ h] at htrue
      cases htrue
    | some r2 =>
      rw [Fulfill_of_lookup_some _ _ _ _ h]
      show (mapLookup (mapErase m.pending id) id).isSome = false
      rw [mapLookup_erase_self]
      rfl
  · intro htrue
    rw [awaitreply_reply_state]
    cases h : mapLookup m.pending id with
    | none =>
      rw [Fail_of_lookup_none _ _ _ h] at htrue
      cases htrue
    | some r2 =>
      rw [Fail_of_lookup_some _ _ _ _ h]
      show (mapLookup (mapErase m.pending id) id).isSome = false
      rw [mapLookup_erase_self]
      rfl

/-- Witness for C7: the reply path after a successful Fulfill on the
concrete one-request manager. -/
theorem awaitreply_entry_removed_witness :
    IsPending (AwaitReply req1 (Fulfill m1 (putUint64LE 1) pl0).2.2
      (.replyReceived ⟨some pl0, none⟩)).2 (putUint64LE 1) = false :=
  (awaitreply_entry_removed req1 m1 .canceled (putUint64LE 1) pl0 e0
    ⟨some pl0, none⟩).2.2.1 (by decide)

/-- C8: whenever AwaitReply returns a nil error the payload it returns is
non-nil; a received reply carrying a nil payload and nil error yields the
empty encoded payload instead of nil. -/
theorem awaitreply_nonnil_payload (req : Request) (m : RequestManager)
    (ev : AwaitEvent) :
    ((AwaitReply req m ev).1.2 = none → ¬ (AwaitReply req m ev).1.1 = none) ∧
    (AwaitReply req m (.replyReceived ⟨none, none⟩)).1 =
      (some emptyEncodedPayload, none) := by
  refine ⟨?_, rfl⟩
  intro herr
  cases ev with
  | ctxDone e => exact Option.noConfusion herr
  | timerFired => exact Option.noConfusion herr
  | replyReceived r =>
    rcases r with ⟨rr, re⟩
    cases re with
    | some err => exact Option.noConfusion herr
    | none =>
      cases rr with
      | none => exact fun hp => Option.noConfusion hp
      | some q => exact fun hp => Option.noConfusion hp

/-- Witness for C8 on a received reply with non-nil payload. -/
theorem awaitreply_nonnil_payload_witness :
    ¬ (AwaitReply req1 m1 (.replyReceived ⟨some pl0, none⟩)).1.1 = none :=
  (awaitreply_nonnil_payload req1 m1 (.replyReceived ⟨some pl0, none⟩)).1
    (by decide)

theorem consistent_new (addr : Nat) :
    consistentWith addr (NewRequestManager addr) := by
  refine ⟨rfl, ?_⟩
  intro p hp
  simp [NewRequestManager] at hp

theorem consistent_applyOp (addr : Nat) (m : RequestManager) (op : Op)
    (h : consistentWith addr m) : consistentWith addr (applyOp m op) := by
  obtain ⟨hs, hp⟩ := h
  refine ⟨by rw [applyOp_selfRef]; exact hs, ?_⟩
  cases op with
  | create t =>
    intro q hq
    rw [applyOp_create_eq] at hq
    simp only [mapInsert] at hq
    rcases List.mem_cons.mp hq with hh | hh
    · rw [hh]
      exact ⟨rfl, hs⟩
    · exact hp q (List.mem_of_mem_filter hh)
  | fulfill id p2 =>
    intro q hq
    rcases applyOp_noncreate_pending m (.fulfill id p2)
        (by intro t ht; cases ht) with hh | ⟨k, hh⟩ <;> rw [hh] at hq
    · exact hp q hq
    · exact hp q (List.mem_of_mem_filter hq)
  | fail id e2 =>
    intro q hq
    rcases applyOp_noncreate_pending m (.fail id e2)
        (by intro t ht; cases ht) with hh | ⟨k, hh⟩ <;> rw [hh] at hq
    · exact hp q hq
    · exact hp q (List.mem_of_mem_filter hq)
  | dereg id =>
    intro q hq
    exact hp q (List.mem_of_mem_filter hq)

/-- C9: in every state reachable from a fresh manager by Create, Fulfill,
Fail and deregister operations, every pending pair maps a key to a Request
whose identifier equals that key and whose manager field references the
owning manager. -/
theorem handle_table_consistency (addr : Nat) (ops : List Op) :
    ∀ p ∈ (runOps (NewRequestManager addr) ops).pending,
      p.2.identifier = p.1 ∧
      p.2.manager = (runOps (NewRequestManager addr) ops).selfRef := by
  have hs : ∀ (l : List Op) (m : RequestManager),
      consistentWith addr m → consistentWith addr (runOps m l) := by
    intro l
    induction l with
    | nil => exact fun m h => h
    | cons op rest ih => exact fun m h => ih _ (consistent_applyOp addr m op h)
  obtain ⟨h1, h2⟩ := hs ops (NewRequestManager addr) (consistent_new addr)
  intro p hp
  rcases h2 p hp with ⟨ha, hb⟩
  exact ⟨ha, by rw [h1]; exact hb⟩

/-- Witness for C9 after one Create on a fresh manager. -/
theorem handle_table_consistency_witness :
    (putUint64LE 1, req1).2.identifier = (putUint64LE 1, req1).1 ∧
    (putUint64LE 1, req1).2.manager =
      (runOps (NewRequestManager 0) [Op.create 5]).selfRef :=
  handle_table_consistency 0 [Op.create 5] (putUint64LE 1, req1) (by decide)

/-- C10: deregister of an absent identifier leaves the manager unchanged,
and deregister is idempotent, so the deregister a timed-out or canceled
AwaitReply performs after an earlier removal is harmless. -/
theorem deregister_idempotent (m : RequestManager) (id : RequestIdentifier) :
    (mapLookup m.pending id = none → deregister m id = m) ∧
    deregister (deregister m id) id = deregister m id := by
  constructor
  · intro h
    show { m with pending := mapErase m.pending id } = m
    rw [mapErase_of_lookup_none _ _ h]
  · show { m with pending := mapErase (mapErase m.pending id) id } =
      deregister m id
    rw [mapErase_idem]
    rfl

/-- Witness for C10: deregistering the unknown identifier 2 leaves the
one-request manager unchanged. -/
theorem deregister_idempotent_witness :
    deregister m1 (putUint64LE 2) = m1 :=
  (deregister_idempotent m1 (putUint64LE 2)).1 (by decide)
